import Mathlib

/-!
# Verification of the Timbers wallpaper compositing pipeline

Shallow embedding of the canvas compositing pipeline of the
`timbers-wallpaper` repository, together with proofs of the specification
claims about it.

The authoritative renderer is the third (most feature-complete) variant of
`generateWallpaper` in `src/components/WallpaperCanvas.jsx` (the variant
with position adjusters, font-size multiplier, text color and match-row
margin handling), as the design notes of the specification direct.

Modelling conventions:
* JavaScript numbers are modelled as exact rationals (`ℚ`) or integers
  (`ℤ`); decimal literals such as `0.12` are modelled by the exact rational
  `12/100`.  Every inequality proved here has slack that dwarfs the
  `2^-52`-relative error of binary64 arithmetic on these magnitudes.
* `Math.floor` is `Int.floor`, `Math.round x` is `⌊x + 1/2⌋` (the two agree
  on all reals, including negatives), `Math.min`/`Math.max` are `min`/`max`.
* JavaScript strings are Lean `String`s; `split` with a one-character
  separator, `parseInt(·, 10)`, `toUpperCase`, `substring` and `replace`
  are re-implemented below on `List Char` with structural recursion so
  that concrete instances evaluate inside the kernel.  `parseInt` results
  are `Option ℤ`, `none` standing for JavaScript `NaN`.
* Fields that JavaScript may leave `undefined` are `Option`-valued; the
  empty string is distinguished from `undefined` exactly as JavaScript
  distinguishes them (both are falsy).
-/

/-! ## JavaScript string primitives -/

/-- JavaScript `String.prototype.split` with a single-character separator.
`"".split(sep)` yields `[""]`, consecutive separators yield empty pieces,
exactly as in JavaScript. -/
def jsSplitChar (sep : Char) : List Char → List (List Char)
  | [] => [[]]
  | c :: rest =>
    let r := jsSplitChar sep rest
    if c = sep then [] :: r
    else
      match r with
      | h :: t => (c :: h) :: t
      | [] => [[c]]

/-- Whitespace characters skipped by `parseInt`. -/
def jsIsSpace (c : Char) : Bool :=
  c = ' ' || c = '\t' || c = '\n' || c = '\r'

/-- Digits of a decimal literal prefix. -/
def jsDigitsValue : List Char → ℤ → Option ℤ
  | [], acc => some acc
  | c :: rest, acc =>
    if c.isDigit then jsDigitsValue rest (acc * 10 + (c.toNat - '0'.toNat : ℕ))
    else some acc

/-- JavaScript `parseInt(s, 10)` on a character list: skip leading
whitespace, read an optional sign and then a maximal run of decimal
digits; `none` models `NaN` (no digits at all). -/
def jsParseIntChars (cs : List Char) : Option ℤ :=
  let cs := cs.dropWhile jsIsSpace
  match cs with
  | '-' :: rest =>
    match rest with
    | c :: _ => if c.isDigit then (jsDigitsValue rest 0).map (fun v => -v) else none
    | [] => none
  | '+' :: rest =>
    match rest with
    | c :: _ => if c.isDigit then jsDigitsValue rest 0 else none
    | [] => none
  | c :: _ => if c.isDigit then jsDigitsValue cs 0 else none
  | [] => none

/-- `parseInt` on a `String`. -/
def jsParseInt (s : String) : Option ℤ := jsParseIntChars s.data

/-- `parseInt` applied to an indexing result; `parseInt(undefined, 10)`
is `NaN`. -/
def jsParseIntOpt (s : Option String) : Option ℤ :=
  match s with
  | none => none
  | some s => jsParseInt s

/-- `split` on a `String`, returning `String`s. -/
def jsSplit (sep : Char) (s : String) : List String :=
  (jsSplitChar sep s.data).map (fun cs => String.mk cs)

/-- JavaScript `toUpperCase` (ASCII-faithful). -/
def jsToUpperCase (s : String) : String :=
  String.mk (s.data.map Char.toUpper)

/-- JavaScript `s.substring(0, n)` (counts of code units modelled as
characters). -/
def jsTake (n : ℕ) (s : String) : String :=
  String.mk (s.data.take n)

/-- JavaScript `String.prototype.replace` with a plain-string pattern:
replace the first occurrence only. -/
def jsReplaceFirstChars (pat rep : List Char) : List Char → List Char
  | [] => []
  | c :: rest =>
    if pat.isPrefixOf (c :: rest) then rep ++ (c :: rest).drop pat.length
    else c :: jsReplaceFirstChars pat rep rest

/-- `replace` on `String`s (first occurrence of a nonempty pattern). -/
def jsReplaceFirst (pat rep s : String) : String :=
  String.mk (jsReplaceFirstChars pat.data rep.data s.data)

/-- The regex replacement `.replace(/\s?(AM|PM)$/i, m => m.trim().toLowerCase().charAt(0))`
from the schedule-row time formatting: if the string ends in `AM`/`PM`
(any case), optionally preceded by one whitespace character, the whole
match is replaced by the single lowercase letter of the meridiem. -/
def jsReplaceAmPmChars (cs : List Char) : List Char :=
  let low := cs.map Char.toLower
  let last2 := low.drop (low.length - 2)
  if 2 ≤ low.length ∧ (last2 = [ 'a', 'm' ] ∨ last2 = [ 'p', 'm' ]) then
    let pre := cs.dropLast.dropLast
    let letter := last2.take 1
    match pre.getLast? with
    | some c => if jsIsSpace c then pre.dropLast ++ letter else pre ++ letter
    | none => letter
  else cs

/-- The meridiem regex replacement on `String`s. -/
def jsReplaceAmPm (s : String) : String :=
  String.mk (jsReplaceAmPmChars s.data)

/-! ## Civil-calendar / epoch arithmetic (the behaviour of `Date.UTC`,
`getUTC*` and the `America/Los_Angeles` time-zone database) -/

/-- Days from the epoch 1970-01-01 for a civil date (proleptic Gregorian);
the standard Hinnant algorithm, on mathematical integers. -/
def daysFromCivil (y m d : ℤ) : ℤ :=
  let y := if m ≤ 2 then y - 1 else y
  let era := Int.fdiv (if 0 ≤ y then y else y - 399) 400
  let yoe := y - era * 400
  let mp := Int.fmod (m + 9) 12
  let doy := Int.fdiv (153 * mp + 2) 5 + d - 1
  let doe := yoe * 365 + Int.fdiv yoe 4 - Int.fdiv yoe 100 + doy
  era * 146097 + doe - 719468

/-- Civil date (year, month, day) from days since the epoch; inverse of
`daysFromCivil`. -/
def civilFromDays (z : ℤ) : ℤ × ℤ × ℤ :=
  let z := z + 719468
  let era := Int.fdiv (if 0 ≤ z then z else z - 146096) 146097
  let doe := z - era * 146097
  let yoe := Int.fdiv (doe - Int.fdiv doe 1460 + Int.fdiv doe 36524 - Int.fdiv doe 146096) 365
  let y := yoe + era * 400
  let doy := doe - (365 * yoe + Int.fdiv yoe 4 - Int.fdiv yoe 100)
  let mp := Int.fdiv (5 * doy + 2) 153
  let d := doy - Int.fdiv (153 * mp + 2) 5 + 1
  let m := mp + (if mp < 10 then 3 else -9)
  (y + (if m ≤ 2 then 1 else 0), m, d)

/-- `Date.UTC(y, monthIndex, d, h, mi, s)` as epoch seconds, `none` for an
invalid date (any `NaN` argument, or a time value beyond the ±8.64e15 ms
`Date` range).  Two-digit years map to 19xx and out-of-range fields are
normalised arithmetically, exactly as `Date.UTC` does. -/
def jsDateUTC (y monIdx d h mi s : Option ℤ) : Option ℤ :=
  match y, monIdx, d, h, mi, s with
  | some y, some monIdx, some d, some h, some mi, some s =>
    let y := if 0 ≤ y ∧ y ≤ 99 then y + 1900 else y
    let months := y * 12 + monIdx
    let yy := Int.fdiv months 12
    let mm := Int.fmod months 12
    let days := daysFromCivil yy (mm + 1) 1 + (d - 1)
    let secs := days * 86400 + h * 3600 + mi * 60 + s
    if secs * 1000 ≤ 8640000000000000 ∧ -8640000000000000 ≤ secs * 1000 then some secs
    else none
  | _, _, _, _, _, _ => none

/-- Epoch days of the second Sunday of March of a given year (start of US
daylight saving time, post-2007 rules). -/
def secondSundayMarch (y : ℤ) : ℤ :=
  let d1 := daysFromCivil y 3 1
  let w := Int.fmod (d1 + 4) 7
  d1 + Int.fmod (7 - w) 7 + 7

/-- Epoch days of the first Sunday of November of a given year (end of US
daylight saving time). -/
def firstSundayNovember (y : ℤ) : ℤ :=
  let d1 := daysFromCivil y 11 1
  let w := Int.fmod (d1 + 4) 7
  d1 + Int.fmod (7 - w) 7

/-- UTC offset, in seconds, of `America/Los_Angeles` at a UTC instant
(epoch seconds): −7 h during daylight saving time (from 10:00 UTC on the
second Sunday of March to 09:00 UTC on the first Sunday of November),
−8 h otherwise.  Post-2007 tzdata rules, which cover every instant the
application handles. -/
def pacificOffsetSecs (t : ℤ) : ℤ :=
  let y := (civilFromDays (Int.fdiv t 86400)).1
  let dstStart := secondSundayMarch y * 86400 + 10 * 3600
  let dstEnd := firstSundayNovember y * 86400 + 9 * 3600
  if dstStart ≤ t ∧ t < dstEnd then -7 * 3600 else -8 * 3600

/-- Decimal rendering of a nonnegative integer, two digits minimum
(`minute: '2-digit'`). -/
def twoDigit (n : ℤ) : String :=
  if n < 10 then "0" ++ toString n else toString n

/-- `Date.prototype.toLocaleTimeString('en-US', { hour: 'numeric',
minute: '2-digit', hour12: true, timeZone: 'America/Los_Angeles' })` on a
valid epoch-second instant, e.g. `"7:30 PM"`.  (Recent ICU emits a narrow
no-break space before the meridiem; the regex class `\s` matches it just
like an ASCII space, so modelling it as a space is outcome-equivalent.) -/
def toLocaleTimePacific (t : ℤ) : String :=
  let localSecs := t + pacificOffsetSecs t
  let secOfDay := Int.fmod localSecs 86400
  let h := Int.fdiv secOfDay 3600
  let mi := Int.fmod (Int.fdiv secOfDay 60) 60
  let h12 := if Int.fmod h 12 = 0 then 12 else Int.fmod h 12
  let mer := if h < 12 then "AM" else "PM"
  toString h12 ++ ":" ++ twoDigit mi ++ " " ++ mer

/-! ## Layout engine (`generateWallpaper`, layout constants block) -/

/-- `Math.max(0.2, Math.min(0.8, patchPositionY))` — the effective patch
position fraction (`LOGO_Y_PERCENT`). -/
def logoYPercent (patchPositionY : ℚ) : ℚ :=
  max (2/10) (min (8/10) patchPositionY)

/-- `LOGO_Y = Math.floor(height * LOGO_Y_PERCENT)` — the patch centre. -/
def logoYOf (height : ℤ) (patchPositionY : ℚ) : ℤ :=
  ⌊(height : ℚ) * logoYPercent patchPositionY⌋

/-- `CIRCLE_RADIUS = Math.floor(Math.min(width, height) * 0.2)`. -/
def circleRadiusOf (width height : ℤ) : ℤ :=
  ⌊(min width height : ℤ) * (2/10 : ℚ)⌋

/-- `Math.max(0.1, Math.min(0.4, matchPositionY))` — the effective
schedule-margin fraction (`SCHEDULE_BOTTOM_MARGIN_PERCENT`). -/
def scheduleMarginPercent (matchPositionY : ℚ) : ℚ :=
  max (1/10) (min (4/10) matchPositionY)

/-- `matchRowHeightEstimate = (width * LOGO_SIZE_PERCENT) + TIME_TEXT_PADDING + 20`
with `LOGO_SIZE_PERCENT = 0.12` and `TIME_TEXT_PADDING = 75`. -/
def matchRowHeightEstimate (width : ℤ) : ℚ :=
  (width : ℚ) * (12/100) + 75 + 20

/-- `calculatedMargin = Math.floor(height * SCHEDULE_BOTTOM_MARGIN_PERCENT)`. -/
def calculatedMargin (height : ℤ) (matchPositionY : ℚ) : ℤ :=
  ⌊(height : ℚ) * scheduleMarginPercent matchPositionY⌋

/-- `minSafeMargin = FOOTER_BOTTOM_MARGIN + matchRowHeightEstimate + MIN_MATCH_FOOTER_BUFFER`
with `FOOTER_BOTTOM_MARGIN = 140` and `MIN_MATCH_FOOTER_BUFFER = 50`. -/
def minSafeMargin (width : ℤ) : ℚ :=
  140 + matchRowHeightEstimate width + 50

/-- `SCHEDULE_BOTTOM_MARGIN = Math.max(Math.min(calculatedMargin, height - minSafeMargin), minSafeMargin)`. -/
def scheduleBottomMargin (width height : ℤ) (matchPositionY : ℚ) : ℚ :=
  max (min (calculatedMargin height matchPositionY : ℚ) ((height : ℚ) - minSafeMargin width))
    (minSafeMargin width)

/-- `logoSize = Math.floor(width * LOGO_SIZE_PERCENT)` — schedule-row logo
diameter. -/
def logoSizeOf (width : ℤ) : ℤ :=
  ⌊(width : ℚ) * (12/100)⌋

/-- `timeTextY = (height - SCHEDULE_BOTTOM_MARGIN) + logoSize/2 + TIME_TEXT_PADDING`;
the renderer takes this as `matchRowBottomY`, the bottom of the match
schedule row (baseline of the match time text). -/
def matchRowBottomY (width height : ℤ) (matchPositionY : ℚ) : ℚ :=
  ((height : ℚ) - scheduleBottomMargin width height matchPositionY)
    + (logoSizeOf width : ℚ) / 2 + 75

/-- `dateTextY = (height - SCHEDULE_BOTTOM_MARGIN) + logoSize/2 + DATE_TEXT_PADDING`. -/
def dateTextYOf (width height : ℤ) (matchPositionY : ℚ) : ℚ :=
  ((height : ℚ) - scheduleBottomMargin width height matchPositionY)
    + (logoSizeOf width : ℚ) / 2 + 40

/-- `textY = showPatchImage ? LOGO_Y + PATCH_TEXT_OFFSET : LOGO_Y + NO_PATCH_TEXT_OFFSET`
with offsets 380 and 100. -/
def customTextY (height : ℤ) (patchPositionY : ℚ) (showPatchImage : Bool) : ℤ :=
  if showPatchImage then logoYOf height patchPositionY + 380
  else logoYOf height patchPositionY + 100

/-! ## Schedule-row date and time formatting (`generateWallpaper`,
short date / short time blocks)

`match.date` and `match.time` are `Option String`: `none` models an
`undefined` field, and both `none` and the empty string are falsy. -/

/-- The short-date field of a schedule-row entry.  `getMonth`/`getDate`
are local-time accessors, so the result of the well-formed branch depends
on the browser's local time zone, supplied here as an offset function
(seconds east of UTC at a given UTC instant).  An unparseable component
makes `Date.UTC` return `NaN`; `getMonth() + 1` and `getDate()` are then
`NaN` and the template string renders `"NaN/NaN"` — no exception is
thrown, so the `catch` that would restore `'TBD'` never runs. -/
def jsShortDate (date : Option String) (localOffsetSecs : ℤ → ℤ) : String :=
  match date with
  | none => "TBD"
  | some ds =>
    if ds = "" then "TBD"
    else
      let parts := jsSplit ' ' ds
      let dateParts := jsSplit '-' (parts.headD "")
      let y := jsParseIntOpt (dateParts.get? 0)
      let mo := (jsParseIntOpt (dateParts.get? 1)).map (fun v => v - 1)
      let d := jsParseIntOpt (dateParts.get? 2)
      match jsDateUTC y mo d (some 0) (some 0) (some 0) with
      | none => "NaN/NaN"
      | some t =>
        let c := civilFromDays (Int.fdiv (t + localOffsetSecs t) 86400)
        toString c.2.1 ++ "/" ++ toString c.2.2

/-- The compact time field of a schedule-row entry: Pacific 12-hour time
with `:00` elided and a one-letter meridiem.  Reads `match.time` for the
guard and `match.date`/`match.time` for the components; an `undefined`
`match.date` makes `match.date.split` throw, which the `catch` converts
to `'TBD'`, while an unparseable component yields an invalid `Date` whose
`toLocaleTimeString` is the string `"Invalid Date"` (untouched by both
`replace`s). -/
def jsShortTime (time date : Option String) : String :=
  match time with
  | none => "TBD"
  | some ts =>
    if ts = "" then "TBD"
    else
      let parts := jsSplit ' ' ts
      if 2 ≤ parts.length then
        match date with
        | none => "TBD"
        | some ds =>
          let dateParts := jsSplit '-' ds
          let timeParts := jsSplit ':' (parts.getD 1 "")
          let y := jsParseIntOpt (dateParts.get? 0)
          let mo := (jsParseIntOpt (dateParts.get? 1)).map (fun v => v - 1)
          let d := jsParseIntOpt (dateParts.get? 2)
          let h := jsParseIntOpt (timeParts.get? 0)
          let mi := jsParseIntOpt (timeParts.get? 1)
          let pacificTime :=
            match jsDateUTC y mo d h mi (some 0) with
            | none => "Invalid Date"
            | some t => toLocaleTimePacific t
          jsReplaceAmPm (jsReplaceFirst ":00" "" pacificTime)
      else "TBD"

/-! ## Custom-text styling (`generateWallpaper`, custom text block) -/

/-- The display/caps-only font set of `WallpaperCanvas.jsx`. -/
def capsOnlyFonts : List String :=
  ["Lethal Slime", "Another Danger", "Rose", "Urban Jungle"]

/-- `displayText`: truncate to 50 characters
(`customText.length > 50 ? customText.substring(0, 50) : customText`)
and force uppercase for the caps-only fonts. -/
def displayTextOf (selectedFont customText : String) : String :=
  let t := if 50 < customText.length then jsTake 50 customText else customText
  if selectedFont ∈ capsOnlyFonts then jsToUpperCase t else t

/-- The per-font `ctx.letterSpacing` assignment of the custom-text block
(lines 1704-1709): `'4px'` for Another Danger, `'2px'` for the other
caps-only fonts, `'0px'` otherwise. -/
def letterSpacingOf (selectedFont : String) : ℤ :=
  if selectedFont ∈ capsOnlyFonts then
    if selectedFont = "Another Danger" then 4 else 2
  else 0

/-- Effect of `clearTextEffects` (`src/utils/textEffects.js`) on the
`ctx.letterSpacing` field: it is reset to `'0px'` unconditionally,
whatever value was assigned before. -/
def clearedLetterSpacing (_assigned : ℤ) : ℤ := 0

/-- The letter spacing in effect when the custom text is drawn: the
per-font assignment is followed by the `clearTextEffects(ctx)` call
(line 1713) before the `strokeText`/`fillText`, so the glyphs are drawn
with zero letter spacing for every font and the per-font assignment is
dead state. -/
def letterSpacingAtDraw (selectedFont : String) : ℤ :=
  clearedLetterSpacing (letterSpacingOf selectedFont)

/-- The `customText` prop of the `WallpaperCanvas` component with its
default parameter: `customText = "PORTLAND TIMBERS"` applies exactly when
the prop is `undefined` (modelled `none`); any supplied string — the
empty string included — is used as-is. -/
def effectiveCustomText (prop : Option String) : String :=
  prop.getD "PORTLAND TIMBERS"

/-! ## Per-font size tables (`generateWallpaper`, font size block) -/

/-- `Math.round` on a rational: `⌊x + 1/2⌋`. -/
def jsRound (q : ℚ) : ℤ := ⌊q + 1/2⌋

/-- Length-bucket base sizes for the Lethal Slime font. -/
def lethalSlimeSize (len : ℕ) : ℕ :=
  if len ≤ 8 then 60 else if len ≤ 12 then 50 else if len ≤ 16 then 44
  else if len ≤ 20 then 38 else if len ≤ 25 then 32 else if len ≤ 30 then 28
  else 24

/-- Length-bucket base sizes for the Another Danger font. -/
def anotherDangerSize (len : ℕ) : ℕ :=
  if len ≤ 8 then 75 else if len ≤ 12 then 65 else if len ≤ 16 then 58
  else if len ≤ 20 then 52 else if len ≤ 25 then 46 else if len ≤ 30 then 42
  else 38

/-- Length-bucket base sizes for the Rose font. -/
def roseSize (len : ℕ) : ℕ :=
  if len ≤ 8 then 78 else if len ≤ 12 then 72 else if len ≤ 16 then 66
  else if len ≤ 20 then 60 else if len ≤ 25 then 54 else if len ≤ 30 then 50
  else 46

/-- Length-bucket base sizes for the Urban Jungle font. -/
def urbanJungleSize (len : ℕ) : ℕ :=
  if len ≤ 8 then 82 else if len ≤ 12 then 74 else if len ≤ 16 then 68
  else if len ≤ 20 then 62 else if len ≤ 25 then 56 else if len ≤ 30 then 52
  else 48

/-- System-font branch: `fontSize = 68`, overwritten to 62 for length
over 30 and to 58 for length over 40 (sequential overwrites as in the
source). -/
def systemFontSize (len : ℕ) : ℕ :=
  let a := 68
  let b := if 30 < len then 62 else a
  if 40 < len then 58 else b

/-- The per-font length-bucket base-size lookup. -/
def baseFontSize (selectedFont : String) (len : ℕ) : ℕ :=
  if selectedFont = "Lethal Slime" then lethalSlimeSize len
  else if selectedFont = "Another Danger" then anotherDangerSize len
  else if selectedFont = "Rose" then roseSize len
  else if selectedFont = "Urban Jungle" then urbanJungleSize len
  else systemFontSize len

/-- The effective font size:
`fontSize = Math.round(fontSize * fontSizeMultiplier)` applied to the
bucket base size of the selected font at `customText.length`. -/
def fontSizeOf (selectedFont customText : String) (fontSizeMultiplier : ℚ) : ℤ :=
  jsRound ((baseFontSize selectedFont customText.length : ℚ) * fontSizeMultiplier)

/-! ## Theme backgrounds (`src/utils/backgroundRenderers.js`) -/

/-- Brand gold, `TIMBERS_GOLD`. -/
def TIMBERS_GOLD : String := "#EAE827"

/-- Brand green, `TIMBERS_GREEN`. -/
def TIMBERS_GREEN : String := "#004812"

/-- Brand white, `TIMBERS_WHITE`. -/
def TIMBERS_WHITE : String := "#FFFFFF"

/-- Geometry of a canvas gradient: `createLinearGradient` /
`createRadialGradient` arguments. -/
inductive GradShape where
  | linear (x0 y0 x1 y1 : ℚ)
  | radial (x0 y0 r0 x1 y1 r1 : ℚ)
deriving DecidableEq

/-- A canvas gradient: geometry plus ordered `(position, color)` stops. -/
structure Gradient where
  shape : GradShape
  stops : List (ℚ × String)
deriving DecidableEq

/-- Result of `getThemeBackground`: a background image source or a
gradient fill. -/
inductive BackgroundFill where
  | image (src : String)
  | gradient (g : Gradient)
deriving DecidableEq

/-- A `ThemeDescriptor` entry of the manifest catalog.  String fields use
`""` for an absent (falsy) value; `colorStops` uses `[]` for an absent or
empty list (both take the default-stop branch). -/
structure ThemeDesc where
  value : String
  label : String
  type : String
  filename : String
  gradientType : String
  gradientDirection : String
  colorStops : List (ℚ × String)
  effects : String
deriving DecidableEq

/-- `createFallbackGradient`: the built-in default two-stop linear
gradient, brand gold at 0 to brand green at 1. -/
def createFallbackGradient (height : ℤ) : Gradient :=
  { shape := .linear 0 0 0 (height : ℚ)
    stops := [(0, TIMBERS_GOLD), (1, TIMBERS_GREEN)] }

/-- `createGradientFromTheme`: gradient geometry from
`gradientType`/`gradientDirection`, stops from `colorStops` or the two
default brand stops when the list is absent/empty. -/
def createGradientFromTheme (theme : ThemeDesc) (width height : ℤ) : Gradient :=
  let w : ℚ := (width : ℚ)
  let h : ℚ := (height : ℚ)
  let shape :=
    if theme.gradientType = "linear" then
      if theme.gradientDirection = "vertical" then GradShape.linear 0 0 0 h
      else if theme.gradientDirection = "horizontal" then GradShape.linear 0 0 w 0
      else if theme.gradientDirection = "diagonal" then GradShape.linear 0 0 w h
      else GradShape.linear 0 0 0 h
    else if theme.gradientType = "radial" then
      if theme.gradientDirection = "from-center" then GradShape.radial (w/2) (h/3) 0 (w/2) h w
      else if theme.gradientDirection = "top-center" then GradShape.radial (w/2) 0 0 (w/2) (h/2) w
      else if theme.gradientDirection = "top-to-bottom" then GradShape.radial (w/2) 0 0 (w/2) h w
      else GradShape.radial (w/2) (h/2) 0 (w/2) (h/2) w
    else GradShape.linear 0 0 0 h
  let stops :=
    if theme.colorStops ≠ [] then theme.colorStops
    else [(0, TIMBERS_GOLD), (1, TIMBERS_GREEN)]
  { shape := shape, stops := stops }

/-- The legacy hard-coded theme `switch` of `getThemeBackground`, run
when the theme id was not resolved (or resolved to a non-image,
non-gradient entry) in the manifest.  `imageLoadOk` is the outcome of the
`tryLoadImage` call for the Timber Jim static background. -/
def legacyThemeBackground (selectedTheme : String) (width height : ℤ)
    (imageLoadOk : Bool) : BackgroundFill :=
  let w : ℚ := (width : ℚ)
  let h : ℚ := (height : ℚ)
  if selectedTheme = "timber_jim" then
    if imageLoadOk then .image "/background/timber_jim.webp"
    else .gradient (createFallbackGradient height)
  else if selectedTheme = "providence" then
    .gradient { shape := .radial (w/2) 0 0 (w/2) (h/2) w
                stops := [(0, "#ffffff"), (2/10, "#004225"), (6/10, "#002815"), (1, "#001a0d")] }
  else if selectedTheme = "rose" then
    .gradient { shape := .linear 0 0 0 h
                stops := [(0, "#4a1c1c"), (4/10, "#004225"), (7/10, "#002815"), (1, "#000000")] }
  else if selectedTheme = "timber" then
    .gradient { shape := .linear 0 0 w h
                stops := [(0, "#4d2600"), (3/10, "#004225"), (7/10, "#002815"), (1, "#000000")] }
  else if selectedTheme = "forest" then
    .gradient { shape := .radial (w/2) (h/3) 0 (w/2) h w
                stops := [(0, "#1a4c33"), (4/10, "#0d3b2a"), (7/10, "#062820"), (1, "#041a16")] }
  else if selectedTheme = "night" then
    .gradient { shape := .radial (w/2) 0 0 (w/2) h w
                stops := [(0, "#1a1a2e"), (3/10, "#16213e"), (6/10, "#0f1419"), (1, "#000000")] }
  else
    .gradient (createFallbackGradient height)

/-- `getThemeBackground`: resolve the selected theme in the manifest
catalog (image themes load their file, falling back to the default
gradient on failure; gradient themes build their gradient), otherwise
fall through to the legacy hard-coded switch. -/
def getThemeBackground (selectedTheme : String) (width height : ℤ)
    (backgroundThemes : List ThemeDesc) (imageLoadOk : Bool) : BackgroundFill :=
  match backgroundThemes.find? (fun t => t.value = selectedTheme) with
  | some theme =>
    if theme.type = "image" ∧ theme.filename ≠ "" then
      if imageLoadOk then .image ("/background/" ++ theme.filename)
      else .gradient (createFallbackGradient height)
    else if theme.type = "gradient" then
      .gradient (createGradientFromTheme theme width height)
    else legacyThemeBackground selectedTheme width height imageLoadOk
  | none => legacyThemeBackground selectedTheme width height imageLoadOk

/-- The six theme ids given dedicated cases by the legacy `switch`
(`classic` shares the `default` case and already yields the default
gradient). -/
def legacyThemeIds : List String :=
  ["timber_jim", "providence", "rose", "timber", "forest", "night"]

/-! ## The scene renderer (`generateWallpaper` as a draw-operation trace)

Each render pass is embedded as the pure function `renderScene`, which
returns the ordered list of drawing operations the pass issues.
Asynchronous asset-load outcomes are passed in as oracles (the pass
awaits each load before deciding what to draw).  The function is total:
every load failure is handled, which is the shallow-embedding form of
"the render pass completes without throwing". -/

/-- One upcoming-match record as consumed by the renderer (and produced
by `getNext4Matches`).  `date`/`time` are `Option String`: `none` models
an `undefined` field. -/
structure MatchRec where
  date : Option String
  time : Option String
  opponent : String
  opponentShort : String
  isHome : Bool
  venue : String
  competition : String
  logoUrl : String
deriving DecidableEq

/-- The `WallpaperCanvas` render inputs used by `generateWallpaper`
(after React default parameters have been applied).
`selectedBackground` uses `""` for a falsy (absent) patch selection. -/
structure RenderReq where
  width : ℤ
  height : ℤ
  selectedTheme : String
  backgroundThemes : List ThemeDesc
  showPatchImage : Bool
  selectedBackground : String
  customText : String
  selectedFont : String
  fontSizeMultiplier : ℚ
  textColor : String
  patchPositionY : ℚ
  matchPositionY : ℚ
  includeDateTime : Bool
  includeMatches : Bool
  nextMatches : List MatchRec
deriving DecidableEq

/-- Outcomes of the renderer's asynchronous collaborators: background
image load success and natural dimensions, per-index opponent-logo load
success, and the browser's local-time-zone offset (seconds east of UTC)
used by the schedule row's `getMonth`/`getDate`. -/
structure Oracles where
  bgImageLoadOk : Bool
  bgDims : ℤ × ℤ
  logoLoadOk : ℕ → Bool
  localOffsetSecs : ℤ → ℤ

/-- A drawing operation issued to the 2D context, with the arguments that
determine what appears where. -/
inductive DrawOp where
  | bgImage (src : String) (dx dy dw dh : ℚ)
  | bgGradientFill (g : Gradient)
  | bgOverlay
  | themeEffect (effectType : String)
  | patchImage (x y w h : ℚ)
  | patchRing (cx : ℚ) (cy r : ℤ)
  | customTextStroke (text : String) (x : ℚ) (y : ℤ)
  | customTextFill (text : String) (x : ℚ) (y : ℤ) (fontPx letterSpacing : ℤ)
  | dateTimeBlock (width height logoY : ℤ)
  | scheduleCircle (cx cy r : ℚ)
  | scheduleLogo (idx : ℕ) (x y w h : ℚ) (fallback : Bool)
  | scheduleDateText (text : String) (x y : ℚ) (fontPx : ℤ)
  | scheduleTimeText (text : String) (x y : ℚ) (fontPx : ℤ)
  | footerStroke (text : String) (x : ℚ) (y : ℤ)
  | footerFill (text : String) (x : ℚ) (y : ℤ) (fontPx : ℤ)
deriving DecidableEq

/-- The operations drawn inside the patch circle: the clipped emblem
image and the gold ring stroke. -/
def isPatchOp : DrawOp → Bool
  | .patchImage _ _ _ _ => true
  | .patchRing _ _ _ => true
  | _ => false

/-- Scale-to-cover placement of a background image (`drawX`, `drawY`,
`drawWidth`, `drawHeight` of the image-background branch). -/
def coverRect (width height iw ih : ℤ) : ℚ × ℚ × ℚ × ℚ :=
  let imgAspect : ℚ := (iw : ℚ) / (ih : ℚ)
  let canvasAspect : ℚ := (width : ℚ) / (height : ℚ)
  if canvasAspect < imgAspect then
    (((width : ℚ) - (height : ℚ) * imgAspect) / 2, 0, (height : ℚ) * imgAspect, (height : ℚ))
  else
    (0, ((height : ℚ) - (width : ℚ) / imgAspect) / 2, (width : ℚ), (width : ℚ) / imgAspect)

/-- Background layer: an image background is drawn covering the canvas
and topped by the fixed dark overlay; a gradient background is a single
full-canvas fill. -/
def backgroundOps (req : RenderReq) (orc : Oracles) : List DrawOp :=
  match getThemeBackground req.selectedTheme req.width req.height req.backgroundThemes
      orc.bgImageLoadOk with
  | .image src =>
    let r := coverRect req.width req.height orc.bgDims.1 orc.bgDims.2
    [.bgImage src r.1 r.2.1 r.2.2.1 r.2.2.2, .bgOverlay]
  | .gradient g => [.bgGradientFill g]

/-- The decorative-effect cases of the `addThemeEffects` switch (the
cases that draw; `classic` and unknown tags fall through drawing
nothing).  The procedural parameters are randomised per call, so the
operation records only which effect ran. -/
def effectSwitch (effectType : String) : List DrawOp :=
  if effectType ∈ ["providence", "rose", "timber", "night", "forest"] then
    [.themeEffect effectType]
  else []

/-- `addThemeEffects`: skipped for manifest image themes and for the
legacy `timber_jim` image theme; otherwise the effect tag is
`theme.effects` when present, the selected theme id when not. -/
def themeEffectOps (selectedTheme : String) (backgroundThemes : List ThemeDesc) : List DrawOp :=
  match backgroundThemes.find? (fun t => t.value = selectedTheme) with
  | some t =>
    if t.type = "image" then []
    else if selectedTheme = "timber_jim" then []
    else effectSwitch (if t.effects ≠ "" then t.effects else selectedTheme)
  | none =>
    if selectedTheme = "timber_jim" then [] else effectSwitch selectedTheme

/-- Patch layer: drawn only when `showPatchImage && selectedBackground`;
`patchOutcome` is the result of awaiting `tryLoadImage` on the patch
(`some` with the image's natural dimensions, `none` for a load failure,
whose `catch` draws nothing — no image and no ring). -/
def patchOps (req : RenderReq) (patchOutcome : Option (ℤ × ℤ)) : List DrawOp :=
  if req.showPatchImage ∧ req.selectedBackground ≠ "" then
    match patchOutcome with
    | some dims =>
      let logoY := logoYOf req.height req.patchPositionY
      let r := circleRadiusOf req.width req.height
      let imgAspect : ℚ := (dims.1 : ℚ) / (dims.2 : ℚ)
      let scaledCircleSize : ℚ := ((r : ℚ) * 2) * 1
      let pos :=
        if 1 < imgAspect then
          ((req.width : ℚ) / 2 - scaledCircleSize / 2,
            (logoY : ℚ) - (scaledCircleSize / imgAspect) / 2,
            scaledCircleSize, scaledCircleSize / imgAspect)
        else
          ((req.width : ℚ) / 2 - (scaledCircleSize * imgAspect) / 2,
            (logoY : ℚ) - scaledCircleSize / 2,
            scaledCircleSize * imgAspect, scaledCircleSize)
      [.patchImage pos.1 pos.2.1 pos.2.2.1 pos.2.2.2,
        .patchRing ((req.width : ℚ) / 2) logoY r]
    | none => []
  else []

/-- Custom-text layer: optional gold outline for the two dark themes,
then the filled text at `(width/2, textY)`.  The recorded letter spacing
is the one in effect at the draw: the per-font assignment has been reset
to `'0px'` by the intervening `clearTextEffects` call (line 1713), so it
is zero for every font. -/
def customTextOps (req : RenderReq) : List DrawOp :=
  let dt := displayTextOf req.selectedFont req.customText
  let ty := customTextY req.height req.patchPositionY req.showPatchImage
  let fs := fontSizeOf req.selectedFont req.customText req.fontSizeMultiplier
  let ls := letterSpacingAtDraw req.selectedFont
  (if req.selectedTheme = "night" ∨ req.selectedTheme = "forest" then
      [.customTextStroke dt ((req.width : ℚ) / 2) ty]
    else [])
    ++ [.customTextFill dt ((req.width : ℚ) / 2) ty fs ls]

/-- Date/time block (`drawDateAndTime(ctx, width, height, LOGO_Y, …)`):
live-clock strings at positions determined by the arguments; recorded as
one block operation. -/
def dateTimeOps (req : RenderReq) : List DrawOp :=
  if req.includeDateTime then
    [.dateTimeBlock req.width req.height (logoYOf req.height req.patchPositionY)]
  else []

/-- One schedule-row entry: white circle, clipped logo (fallback badge
when the URL is falsy or the load fails), short date and compact time. -/
def matchEntryOps (req : RenderReq) (orc : Oracles) (scheduleY : ℚ) (logoSize : ℤ)
    (startX itemWidth : ℚ) (i : ℕ) (m : MatchRec) : List DrawOp :=
  let itemCenterX := startX + (i : ℚ) * itemWidth + itemWidth / 2
  let fallback := m.logoUrl = "" ∨ orc.logoLoadOk i = false
  [ .scheduleCircle itemCenterX scheduleY ((logoSize : ℚ) / 2),
    .scheduleLogo i (itemCenterX - (logoSize : ℚ) / 2 + 2) (scheduleY - (logoSize : ℚ) / 2 + 2)
      ((logoSize : ℚ) - 4) ((logoSize : ℚ) - 4) fallback,
    .scheduleDateText (jsShortDate m.date orc.localOffsetSecs) itemCenterX
      (scheduleY + (logoSize : ℚ) / 2 + 40) ⌊(req.width : ℚ) * (34/1000)⌋,
    .scheduleTimeText (jsShortTime m.time m.date) itemCenterX
      (scheduleY + (logoSize : ℚ) / 2 + 75) ⌊(req.width : ℚ) * (28/1000)⌋ ]

/-- Schedule row: up to `min(nextMatches.length, 6)` entries, evenly
spaced across the centred band of width `width * 0.85`. -/
def scheduleOps (req : RenderReq) (orc : Oracles) : List DrawOp :=
  if req.includeMatches ∧ req.nextMatches ≠ [] then
    let maxMatches := min req.nextMatches.length 6
    let totalWidth : ℚ := (req.width : ℚ) * (85/100)
    let itemWidth := totalWidth / (maxMatches : ℚ)
    let startX := ((req.width : ℚ) - totalWidth) / 2
    let scheduleY := (req.height : ℚ) - scheduleBottomMargin req.width req.height req.matchPositionY
    ((req.nextMatches.take maxMatches).enum.map
      (fun p => matchEntryOps req orc scheduleY (logoSizeOf req.width) startX itemWidth p.1 p.2)).flatten
  else []

/-- The fixed footer tagline. -/
def footerBaseText : String := "Rose City Till I Die! 🌹⚽"

/-- Footer: the tagline (uppercased for caps-only fonts) at
`(width/2, height − FOOTER_BOTTOM_MARGIN)`, with the dark-theme outline
treatment, at `Math.round(24 * fontSizeMultiplier)` px. -/
def footerOps (req : RenderReq) : List DrawOp :=
  let ft :=
    if req.selectedFont ∈ capsOnlyFonts then jsToUpperCase footerBaseText else footerBaseText
  (if req.selectedTheme = "night" ∨ req.selectedTheme = "forest" then
      [.footerStroke ft ((req.width : ℚ) / 2) (req.height - 140)]
    else [])
    ++ [.footerFill ft ((req.width : ℚ) / 2) (req.height - 140)
          (jsRound (24 * req.fontSizeMultiplier))]

/-- One full render pass of `generateWallpaper` as its ordered trace of
drawing operations: background, decorative effects, patch, custom text,
date/time block, schedule row, footer. -/
def renderScene (req : RenderReq) (orc : Oracles) (patchOutcome : Option (ℤ × ℤ)) :
    List DrawOp :=
  backgroundOps req orc
    ++ themeEffectOps req.selectedTheme req.backgroundThemes
    ++ patchOps req patchOutcome
    ++ customTextOps req
    ++ dateTimeOps req
    ++ scheduleOps req orc
    ++ footerOps req

/-! ## The bundled match provider (`src/utils/scheduleUtils.js`) -/

/-- A fixture participant (`participants` entry); `metaLocation` is
`meta.location`. -/
structure Participant where
  id : ℤ
  name : String
  short_code : String
  image_path : String
  metaLocation : String
deriving DecidableEq

/-- A schedule fixture. -/
structure Fixture where
  starting_at : String
  state_id : ℤ
  participants : List Participant
deriving DecidableEq

/-- A round inside a stage. -/
structure Round where
  fixtures : List Fixture
deriving DecidableEq

/-- A schedule stage: direct fixtures plus fixtures grouped in rounds
(an absent list is modelled by `[]`, over which the `forEach` is a
no-op). -/
structure Stage where
  name : String
  fixtures : List Fixture
  rounds : List Round
deriving DecidableEq

/-- All fixtures of a stage, paired with the stage name they are tagged
with (`competition: stage.name`): direct fixtures first, then the
rounds' fixtures, in source order. -/
def stageFixtures (st : Stage) : List (Fixture × String) :=
  st.fixtures.map (fun fx => (fx, st.name))
    ++ (st.rounds.map (fun r => r.fixtures.map (fun fx => (fx, st.name)))).flatten

/-- All fixtures of the schedule in traversal order. -/
def allFixtures (sched : List Stage) : List (Fixture × String) :=
  (sched.map stageFixtures).flatten

/-- The upcoming-fixture filter:
`new Date(fixture.starting_at) > currentDate && fixture.state_id === 1`.
`nativeParse` models the engine-dependent native `Date` string parsing
(`none` for an invalid date, which compares false). -/
def isUpcoming (nativeParse : String → Option ℤ) (now : ℤ) (fx : Fixture) : Bool :=
  (match nativeParse fx.starting_at with
    | some t => decide (now < t)
    | none => false)
    && decide (fx.state_id = 1)

/-- `parseDateSafely` of `scheduleUtils.js` as a sort key in epoch
seconds: component-wise UTC parsing, `some now` for a falsy input
(`new Date()`), `none` for a `NaN` time value. -/
def sortKey (now : ℤ) (s : String) : Option ℤ :=
  if s = "" then some now
  else
    let parts := jsSplit ' ' s
    let dateParts := jsSplit '-' (parts.headD "")
    let y := jsParseIntOpt (dateParts.get? 0)
    let mo := (jsParseIntOpt (dateParts.get? 1)).map (fun v => v - 1)
    let d := jsParseIntOpt (dateParts.get? 2)
    if 2 ≤ parts.length then
      let timeParts := jsSplit ':' (parts.getD 1 "")
      let h := jsParseIntOpt (timeParts.get? 0)
      let mi := jsParseIntOpt (timeParts.get? 1)
      let s2 :=
        match timeParts.get? 2 with
        | none => some 0
        | some str => if str = "" then some (0 : ℤ) else jsParseInt str
      jsDateUTC y mo d h mi s2
    else jsDateUTC y mo d (some 0) (some 0) (some 0)

/-- Total sort key: a `NaN` key is pinned to `0`.  (A `NaN`-returning
comparator makes the ECMAScript sort order unspecified, so any total
extension is a legitimate model; every theorem below that concerns order
is only about keys that parse.) -/
def sortKeyD (now : ℤ) (s : String) : ℤ :=
  (sortKey now s).getD 0

/-- The comparator `parseDateSafely(a.starting_at) - parseDateSafely(b.starting_at) ≤ 0`
as a relation on tagged fixtures. -/
def fixtureLE (now : ℤ) (a b : Fixture × String) : Prop :=
  sortKeyD now a.1.starting_at ≤ sortKeyD now b.1.starting_at

instance (now : ℤ) : DecidableRel (fixtureLE now) := fun a b =>
  inferInstanceAs (Decidable (sortKeyD now a.1.starting_at ≤ sortKeyD now b.1.starting_at))

instance (now : ℤ) : IsTotal (Fixture × String) (fixtureLE now) :=
  ⟨fun a b => Int.le_total (sortKeyD now a.1.starting_at) (sortKeyD now b.1.starting_at)⟩

instance (now : ℤ) : IsTrans (Fixture × String) (fixtureLE now) :=
  ⟨fun _ _ _ h1 h2 => le_trans h1 h2⟩

/-- JavaScript `Array.prototype.map` with a body that can throw:
left-to-right, the first throw aborts the whole map (`none`). -/
def jsMapThrow {α β : Type} (f : α → Option β) : List α → Option (List β)
  | [] => some []
  | a :: rest =>
    match f a, jsMapThrow f rest with
    | some b, some bs => some (b :: bs)
    | _, _ => none

/-- The per-fixture mapping of `getNext4Matches`' final `.map`:
`none` models the `TypeError` thrown when a fixture has no participant
with id 607 (`timbers.meta.location`).  `manifestLogo name shortCode`
models `getTeamLogoFromManifest` (a catalog lookup external to the
provider; `""` for a null/absent result, and the argument not supplied by
the call site is passed as `""` for `null`). -/
def toMatchRec (manifestLogo : String → String → String) (p : Fixture × String) :
    Option MatchRec :=
  let fx := p.1
  let opponent := fx.participants.find? (fun q => q.id ≠ 607)
  match fx.participants.find? (fun q => q.id = 607) with
  | none => none
  | some timbers =>
    let isHome := timbers.metaLocation = "home"
    let opponentName :=
      match opponent with
      | some o => if o.name ≠ "" then o.name else "TBD"
      | none => "TBD"
    let shortCode :=
      match opponent with
      | some o => o.short_code
      | none => ""
    let hq0 := if shortCode ≠ "" then manifestLogo "" shortCode else manifestLogo opponentName ""
    let hq := if hq0 = "" ∧ shortCode ≠ "" then manifestLogo opponentName "" else hq0
    let originalLogo :=
      match opponent with
      | some o => o.image_path
      | none => ""
    some
      { date := some fx.starting_at
        time := some fx.starting_at
        opponent := opponentName
        opponentShort := if shortCode ≠ "" then shortCode else "TBD"
        isHome := isHome
        venue := if isHome then "Providence Park" else "Away"
        competition := if p.2 ≠ "" then p.2 else "MLS"
        logoUrl := if hq ≠ "" then hq else originalLogo }

/-- `getNext4Matches`: collect all fixtures, keep upcoming state-1
fixtures, sort ascending by `parseDateSafely`, take the first 4, map to
match records.  The sort is a stable sort by `fixtureLE`, which is the
behaviour of `Array.prototype.sort` with this comparator whenever the
keys parse.  `none` models the `TypeError` escape of the final map. -/
def getNext4Matches (sched : List Stage) (nativeParse : String → Option ℤ) (now : ℤ)
    (manifestLogo : String → String → String) : Option (List MatchRec) :=
  let upcoming := (allFixtures sched).filter (fun p => isUpcoming nativeParse now p.1)
  let sorted := upcoming.insertionSort (fixtureLE now)
  jsMapThrow (toMatchRec manifestLogo) (sorted.take 4)

/-! ## Concrete demonstration inputs (used by witness theorems) -/

/-- A render request with the patch enabled, used to witness the
patch-failure claim at a concrete input. -/
def demoPatchReq : RenderReq :=
  { width := 1080, height := 1920, selectedTheme := "classic", backgroundThemes := []
    showPatchImage := true, selectedBackground := "timbers-army.png"
    customText := "PORTLAND TIMBERS", selectedFont := "Rose", fontSizeMultiplier := 1
    textColor := "#FFFFFF", patchPositionY := 4/10, matchPositionY := 26/100
    includeDateTime := false, includeMatches := true
    nextMatches :=
      [ { date := some "2025-07-06 02:30:00", time := some "2025-07-06 02:30:00"
          opponent := "New England", opponentShort := "NE", isHome := true
          venue := "Providence Park", competition := "MLS", logoUrl := "" } ] }

/-- Load outcomes for the demonstration render (Pacific standard offset
for the local clock). -/
def demoOracles : Oracles :=
  { bgImageLoadOk := true, bgDims := (100, 200), logoLoadOk := fun _ => true
    localOffsetSecs := fun _ => -25200 }

/-- The patch-enabled request restyled with the Another Danger caps-only
font, used by the letter-spacing counterexample. -/
def demoDangerReq : RenderReq :=
  { demoPatchReq with selectedFont := "Another Danger", customText := "hello" }

/-- A one-stage, one-fixture schedule used to witness the provider
claim. -/
def demoSchedule : List Stage :=
  [ { name := "Regular Season"
      fixtures :=
        [ { starting_at := "2025-08-01 22:00:00", state_id := 1
            participants :=
              [ { id := 607, name := "Portland Timbers", short_code := "POT"
                  image_path := "t.png", metaLocation := "home" },
                { id := 538, name := "Queretaro", short_code := "QUE"
                  image_path := "q.png", metaLocation := "away" } ] } ]
      rounds := [] } ]

/-- The match records `getNext4Matches` produces from `demoSchedule`. -/
def demoMatches : List MatchRec :=
  [ { date := some "2025-08-01 22:00:00", time := some "2025-08-01 22:00:00"
      opponent := "Queretaro", opponentShort := "QUE", isHome := true
      venue := "Providence Park", competition := "Regular Season", logoUrl := "q.png" } ]

/-! ## Theorems -/

/-- Helper: truncation is the identity on strings of at most 50
characters. -/
theorem jsTake_of_le {s : String} (h : s.length ≤ 50) : jsTake 50 s = s := by
  unfold jsTake
  rw [List.take_of_length_le h]

/-- C4: the effective patch-position fraction is the clamp of
`patchPositionY` to [0.2, 0.8] — the boundary when the input is outside
the interval and the input itself when inside — and likewise the
effective schedule-margin fraction is the clamp of `matchPositionY` to
[0.1, 0.4]. -/
theorem position_ratio_clamping (r m : ℚ) :
    ((r < 2/10 → logoYPercent r = 2/10)
      ∧ (8/10 < r → logoYPercent r = 8/10)
      ∧ (2/10 ≤ r → r ≤ 8/10 → logoYPercent r = r))
    ∧ ((m < 1/10 → scheduleMarginPercent m = 1/10)
      ∧ (4/10 < m → scheduleMarginPercent m = 4/10)
      ∧ (1/10 ≤ m → m ≤ 4/10 → scheduleMarginPercent m = m)) := by
  unfold logoYPercent scheduleMarginPercent
  refine ⟨⟨?_, ?_, ?_⟩, ?_, ?_, ?_⟩
  · intro h
    rw [min_eq_right (le_of_lt (lt_trans h (by norm_num))), max_eq_left (le_of_lt h)]
  · intro h
    rw [min_eq_left (le_of_lt h), max_eq_right (by norm_num)]
  · intro h1 h2
    rw [min_eq_right h2, max_eq_right h1]
  · intro h
    rw [min_eq_right (le_of_lt (lt_trans h (by norm_num))), max_eq_left (le_of_lt h)]
  · intro h
    rw [min_eq_left (le_of_lt h), max_eq_right (by norm_num)]
  · intro h1 h2
    rw [min_eq_right h2, max_eq_right h1]

/-- Witness for C4 at concrete out-of-range and boundary inputs. -/
theorem position_ratio_clamping_witness :
    logoYPercent (1/10) = 2/10 ∧ scheduleMarginPercent (1/2) = 4/10 :=
  ⟨(position_ratio_clamping (1/10) (1/2)).1.1 (by norm_num),
    (position_ratio_clamping (1/10) (1/2)).2.2.1 (by norm_num)⟩

/-- C1: for every canvas at or above 1080×1920 and every
`matchPositionY`, the bottom of the rendered match schedule row (the
baseline of the match time text) stays at least
`footerMargin (140) + minimumBuffer (50)` above the bottom edge, because
`SCHEDULE_BOTTOM_MARGIN` is clamped from below by `minSafeMargin`. -/
theorem match_row_footer_non_collision (w h : ℤ) (hw : 1080 ≤ w) (_hh : 1920 ≤ h)
    (m : ℚ) : matchRowBottomY w h m ≤ (h : ℚ) - 140 - 50 := by
  have h1 : minSafeMargin w ≤ scheduleBottomMargin w h m := le_max_right _ _
  have h2 : (logoSizeOf w : ℚ) ≤ (w : ℚ) * (12/100) := Int.floor_le _
  have hw' : (1080 : ℚ) ≤ (w : ℚ) := by exact_mod_cast hw
  unfold matchRowBottomY
  unfold minSafeMargin matchRowHeightEstimate at h1
  linarith

/-- Witness for C1 at the minimum supported resolution and the default
match-row ratio. -/
theorem match_row_footer_non_collision_witness :
    matchRowBottomY 1080 1920 (26/100) ≤ ((1920 : ℤ) : ℚ) - 140 - 50 :=
  match_row_footer_non_collision 1080 1920 (by norm_num) (by norm_num) (26/100)

set_option maxRecDepth 4000 in
/-- C3 counterexample: with the Another Danger font the custom-text fill
operation carries letter spacing 0, not the 4 px the claim states: the
per-font assignment is wiped by the `clearTextEffects` call that runs
between it and the draw, so the drawn spacing never equals the assigned
4 px / 2 px values. -/
theorem caps_spacing_counterexample :
    customTextOps demoDangerReq = [DrawOp.customTextFill "HELLO" 540 1148 75 0]
    ∧ letterSpacingOf "Another Danger" = 4
    ∧ letterSpacingAtDraw "Another Danger" ≠ letterSpacingOf "Another Danger" := by
  refine ⟨by with_unfolding_all rfl, rfl, by decide⟩

/-- C3 amended: for every caps-only font the drawn glyph string is the
uppercase transform of `customText` truncated to 50 characters, and for
any other font the plain 50-character truncation; the per-font
letter-spacing assignment (4 px for Another Danger, 2 px for the other
caps-only fonts, 0 px otherwise) is made but is reset to 0 px by the
state-clearing call that precedes the draw, so the text is drawn with
zero letter spacing for every font. -/
theorem caps_only_enforcement (font text : String) :
    displayTextOf font text =
      (if font ∈ capsOnlyFonts then jsToUpperCase (jsTake 50 text) else jsTake 50 text)
    ∧ letterSpacingOf font =
      (if font ∈ capsOnlyFonts then (if font = "Another Danger" then 4 else 2) else 0)
    ∧ letterSpacingAtDraw font = 0 := by
  refine ⟨?_, rfl, rfl⟩
  unfold displayTextOf
  by_cases hlen : 50 < text.length
  · simp only [hlen, if_true]
  · have ht : jsTake 50 text = text := jsTake_of_le (Nat.le_of_not_lt hlen)
    simp only [hlen, if_false, ht]

/-- C7: the compact schedule-row time string for the UTC kickoff
timestamp 2025-07-06 02:30:00 is the Pacific Daylight Time rendering
`7:30p` (12-hour clock, two-digit minutes, `:00` suppressed, one-letter
lowercase meridiem). -/
theorem pacific_time_fixed_point :
    jsShortTime (some "2025-07-06 02:30:00") (some "2025-07-06 02:30:00") = "7:30p" := by
  decide

/-- C9 counterexample: with the empty string supplied as `customText`,
the drawn custom-text glyph string is empty — it is not the fallback
label, contradicting the claim that an empty `customText` still displays
`PORTLAND TIMBERS`. -/
theorem empty_text_fallback_counterexample :
    displayTextOf "Avenir" (effectiveCustomText (some "")) = ""
    ∧ ("" : String) ≠ "PORTLAND TIMBERS" := by
  exact ⟨rfl, by decide⟩

/-- C9 amended: the fallback label applies when the `customText` prop is
absent (`undefined`), in which case the drawn glyph string is the
non-empty label `PORTLAND TIMBERS` for every font (it is its own
uppercase); when the empty string is supplied, the drawn glyph string is
empty. -/
theorem empty_text_fallback_amended (font : String) :
    displayTextOf font (effectiveCustomText none) = "PORTLAND TIMBERS"
    ∧ displayTextOf font (effectiveCustomText (some "")) =
        (if font ∈ capsOnlyFonts then jsToUpperCase "" else "") := by
  have hl : ¬ (50 < ("PORTLAND TIMBERS" : String).length) := by decide
  have hup : jsToUpperCase "PORTLAND TIMBERS" = "PORTLAND TIMBERS" := by decide
  have hl0 : ¬ (50 < ("" : String).length) := by decide
  constructor
  · unfold effectiveCustomText displayTextOf
    simp only [Option.getD, hl, if_false]
    by_cases hc : font ∈ capsOnlyFonts
    · simp [hc, hup]
    · simp [hc]
  · unfold effectiveCustomText displayTextOf
    simp only [Option.getD, hl0, if_false]

/-- C2 counterexample: a match whose timestamp is present but not
parseable ('bad-date here') renders `NaN/NaN` for the short date field —
not the literal `TBD` the claim states — because `parseInt` yields `NaN`
without throwing, so the `catch` that restores `TBD` never runs; the
compact time field likewise renders `Invalid Date`. -/
theorem malformed_timestamp_counterexample :
    jsShortDate (some "bad-date here") (fun _ => 0) = "NaN/NaN"
    ∧ jsShortDate (some "bad-date here") (fun _ => 0) ≠ "TBD"
    ∧ jsShortTime (some "bad-date here") (some "bad-date here") = "Invalid Date" := by
  refine ⟨rfl, by decide, rfl⟩

/-- C2 amended: a missing (undefined or empty) timestamp renders the
literal `TBD` for both schedule-row fields, and rendering never throws;
a malformed-but-present timestamp also does not throw, but renders the
NaN-propagated strings instead of `TBD`: `NaN/NaN` for the date field,
and for the time field `Invalid Date` when the string contains a space
and `TBD` only when it does not. -/
theorem missing_timestamp_renders_tbd :
    (∀ off : ℤ → ℤ,
      jsShortDate none off = "TBD"
      ∧ jsShortDate (some "") off = "TBD"
      ∧ jsShortDate (some "bad-date here") off = "NaN/NaN")
    ∧ (∀ d : Option String, jsShortTime none d = "TBD" ∧ jsShortTime (some "") d = "TBD")
    ∧ jsShortTime (some "garbage") (some "garbage") = "TBD"
    ∧ jsShortTime (some "bad-date here") (some "bad-date here") = "Invalid Date" := by
  exact ⟨fun off => ⟨rfl, rfl, rfl⟩, fun d => ⟨rfl, rfl⟩, rfl, rfl⟩

/-- Helper: the Lethal Slime bucket table is non-increasing. -/
theorem lethalSlimeSize_anti {l1 l2 : ℕ} (h : l1 ≤ l2) :
    lethalSlimeSize l2 ≤ lethalSlimeSize l1 := by
  unfold lethalSlimeSize
  split_ifs <;> omega

/-- Helper: the Another Danger bucket table is non-increasing. -/
theorem anotherDangerSize_anti {l1 l2 : ℕ} (h : l1 ≤ l2) :
    anotherDangerSize l2 ≤ anotherDangerSize l1 := by
  unfold anotherDangerSize
  split_ifs <;> omega

/-- Helper: the Rose bucket table is non-increasing. -/
theorem roseSize_anti {l1 l2 : ℕ} (h : l1 ≤ l2) :
    roseSize l2 ≤ roseSize l1 := by
  unfold roseSize
  split_ifs <;> omega

/-- Helper: the Urban Jungle bucket table is non-increasing. -/
theorem urbanJungleSize_anti {l1 l2 : ℕ} (h : l1 ≤ l2) :
    urbanJungleSize l2 ≤ urbanJungleSize l1 := by
  unfold urbanJungleSize
  split_ifs <;> omega

/-- Helper: the system-font size chain is non-increasing. -/
theorem systemFontSize_anti {l1 l2 : ℕ} (h : l1 ≤ l2) :
    systemFontSize l2 ≤ systemFontSize l1 := by
  unfold systemFontSize
  dsimp only
  split_ifs <;> omega

/-- C8: for each fixed font the length-bucket base size is non-increasing
in the text length (in particular across the 8/12/16/20/25/30 bucket
boundaries), and the effective font size is the base size scaled by the
multiplier and rounded to the nearest integer. -/
theorem font_size_monotonicity (font : String) (l1 l2 : ℕ) (h : l1 ≤ l2)
    (text : String) (mult : ℚ) :
    baseFontSize font l2 ≤ baseFontSize font l1
    ∧ fontSizeOf font text mult =
        jsRound ((baseFontSize font text.length : ℚ) * mult) := by
  refine ⟨?_, rfl⟩
  unfold baseFontSize
  split_ifs
  · exact lethalSlimeSize_anti h
  · exact anotherDangerSize_anti h
  · exact roseSize_anti h
  · exact urbanJungleSize_anti h
  · exact systemFontSize_anti h

/-- Witness for C8 across the first bucket boundary of the Rose font. -/
theorem font_size_monotonicity_witness :
    baseFontSize "Rose" 9 ≤ baseFontSize "Rose" 5
    ∧ fontSizeOf "Rose" "hello" 1 =
        jsRound ((baseFontSize "Rose" ("hello" : String).length : ℚ) * 1) :=
  font_size_monotonicity "Rose" 5 9 (by decide) "hello" 1

/-- C6: a theme id that neither resolves in the supplied catalog nor
names one of the hard-coded legacy themes falls back to the built-in
default two-stop linear gradient, brand gold `#EAE827` at 0 to brand
green `#004812` at 1 — in particular with the empty catalog — and a
resolved gradient theme whose `colorStops` list is absent or empty also
receives exactly those two default stops. -/
theorem theme_fallback_default_gradient (themeId : String) (themes : List ThemeDesc)
    (w h : ℤ) (ok : Bool)
    (hfind : themes.find? (fun t => t.value = themeId) = none)
    (hleg : themeId ∉ legacyThemeIds) :
    getThemeBackground themeId w h themes ok = .gradient (createFallbackGradient h)
    ∧ getThemeBackground themeId w h [] ok = .gradient (createFallbackGradient h)
    ∧ (∀ t : ThemeDesc, t.colorStops = [] →
        (createGradientFromTheme t w h).stops = [(0, TIMBERS_GOLD), (1, TIMBERS_GREEN)])
    ∧ (createFallbackGradient h).stops = [(0, TIMBERS_GOLD), (1, TIMBERS_GREEN)]
    ∧ (createFallbackGradient h).shape = .linear 0 0 0 (h : ℚ) := by
  simp only [legacyThemeIds, List.mem_cons, List.not_mem_nil, or_false, not_or] at hleg
  obtain ⟨h1, h2, h3, h4, h5, h6⟩ := hleg
  refine ⟨?_, ?_, ?_, rfl, rfl⟩
  · unfold getThemeBackground
    rw [hfind]
    unfold legacyThemeBackground
    simp only [h1, h2, h3, h4, h5, h6, if_false]
  · unfold getThemeBackground
    simp only [List.find?_nil]
    unfold legacyThemeBackground
    simp only [h1, h2, h3, h4, h5, h6, if_false]
  · intro t hcs
    unfold createGradientFromTheme
    simp only [hcs, ne_eq, not_true_eq_false, if_false]

/-- Witness for C6 with an unknown theme id and the empty catalog. -/
theorem theme_fallback_default_gradient_witness :
    getThemeBackground "neon" 1080 1920 [] true =
      .gradient (createFallbackGradient 1920) :=
  (theme_fallback_default_gradient "neon" [] 1080 1920 true rfl (by decide)).1

/-- Helper: filtering away patch operations is the identity on a list
with none. -/
theorem filter_nonpatch_eq_self {l : List DrawOp} (hl : ∀ o ∈ l, isPatchOp o = false) :
    l.filter (fun o => !isPatchOp o) = l := by
  apply List.filter_eq_self.mpr
  intro o ho
  simp [hl o ho]

/-- Helper: the background layer draws nothing inside the patch circle. -/
theorem backgroundOps_nonpatch (req : RenderReq) (orc : Oracles) :
    ∀ o ∈ backgroundOps req orc, isPatchOp o = false := by
  intro o ho
  unfold backgroundOps at ho
  cases hgb : getThemeBackground req.selectedTheme req.width req.height req.backgroundThemes
      orc.bgImageLoadOk with
  | image src =>
    simp only [hgb, List.mem_cons, List.not_mem_nil, or_false] at ho
    rcases ho with rfl | rfl <;> rfl
  | gradient g =>
    simp only [hgb, List.mem_cons, List.not_mem_nil, or_false] at ho
    subst ho
    rfl

/-- Helper: the decorative-effect switch draws nothing inside the patch
circle. -/
theorem effectSwitch_nonpatch (s : String) :
    ∀ o ∈ effectSwitch s, isPatchOp o = false := by
  intro o ho
  unfold effectSwitch at ho
  split at ho
  · simp only [List.mem_cons, List.not_mem_nil, or_false] at ho
    subst ho
    rfl
  · exact absurd ho (List.not_mem_nil o)

/-- Helper: the theme-effects layer draws nothing inside the patch
circle. -/
theorem themeEffectOps_nonpatch (t : String) (themes : List ThemeDesc) :
    ∀ o ∈ themeEffectOps t themes, isPatchOp o = false := by
  intro o ho
  unfold themeEffectOps at ho
  cases hf : themes.find? (fun td => td.value = t) with
  | some td =>
    simp only [hf] at ho
    split at ho
    · exact absurd ho (List.not_mem_nil o)
    · split at ho
      · exact absurd ho (List.not_mem_nil o)
      · exact effectSwitch_nonpatch _ o ho
  | none =>
    simp only [hf] at ho
    split at ho
    · exact absurd ho (List.not_mem_nil o)
    · exact effectSwitch_nonpatch _ o ho

/-- Helper: the custom-text layer draws nothing inside the patch
circle. -/
theorem customTextOps_nonpatch (req : RenderReq) :
    ∀ o ∈ customTextOps req, isPatchOp o = false := by
  intro o ho
  simp only [customTextOps, List.mem_append] at ho
  rcases ho with hs | hf
  · split at hs
    · simp only [List.mem_cons, List.not_mem_nil, or_false] at hs
      subst hs
      rfl
    · exact absurd hs (List.not_mem_nil o)
  · simp only [List.mem_cons, List.not_mem_nil, or_false] at hf
    subst hf
    rfl

/-- Helper: the date/time block draws nothing inside the patch circle. -/
theorem dateTimeOps_nonpatch (req : RenderReq) :
    ∀ o ∈ dateTimeOps req, isPatchOp o = false := by
  intro o ho
  unfold dateTimeOps at ho
  split at ho
  · simp only [List.mem_cons, List.not_mem_nil, or_false] at ho
    subst ho
    rfl
  · exact absurd ho (List.not_mem_nil o)

/-- Helper: a schedule-row entry draws nothing inside the patch
circle. -/
theorem matchEntryOps_nonpatch (req : RenderReq) (orc : Oracles) (sy : ℚ) (ls : ℤ)
    (sx iw : ℚ) (i : ℕ) (m : MatchRec) :
    ∀ o ∈ matchEntryOps req orc sy ls sx iw i m, isPatchOp o = false := by
  intro o ho
  simp only [matchEntryOps, List.mem_cons, List.not_mem_nil, or_false] at ho
  rcases ho with rfl | rfl | rfl | rfl <;> rfl

/-- Helper: the schedule row draws nothing inside the patch circle. -/
theorem scheduleOps_nonpatch (req : RenderReq) (orc : Oracles) :
    ∀ o ∈ scheduleOps req orc, isPatchOp o = false := by
  intro o ho
  simp only [scheduleOps] at ho
  split at ho
  · obtain ⟨l', hl', hol⟩ := List.mem_flatten.mp ho
    obtain ⟨p, _, rfl⟩ := List.mem_map.mp hl'
    exact matchEntryOps_nonpatch _ _ _ _ _ _ _ _ o hol
  · exact absurd ho (List.not_mem_nil o)

/-- Helper: the footer draws nothing inside the patch circle. -/
theorem footerOps_nonpatch (req : RenderReq) :
    ∀ o ∈ footerOps req, isPatchOp o = false := by
  intro o ho
  simp only [footerOps, List.mem_append] at ho
  rcases ho with hs | hf
  · split at hs
    · simp only [List.mem_cons, List.not_mem_nil, or_false] at hs
      subst hs
      rfl
    · exact absurd hs (List.not_mem_nil o)
  · simp only [List.mem_cons, List.not_mem_nil, or_false] at hf
    subst hf
    rfl

/-- Helper: a failed patch load draws nothing at all in the patch
layer. -/
theorem patchOps_of_load_failure (req : RenderReq) : patchOps req none = [] := by
  unfold patchOps
  split
  · rfl
  · rfl

/-- Helper: the patch layer of a successful load consists solely of
patch operations. -/
theorem patchOps_some_filter (req : RenderReq) (dims : ℤ × ℤ) :
    (patchOps req (some dims)).filter (fun o => !isPatchOp o) = [] := by
  unfold patchOps
  split
  · rfl
  · rfl

/-- C5: when the patch image fails to load, the render pass still
completes (the trace is total), nothing is drawn inside the patch circle
(no image, no ring), and every other operation is identical — in
arguments and order — to the trace of a successful-patch render; in
particular the custom text sits at `patchCenterY + 380` in both cases,
since its position depends only on the `showPatchImage` flag. -/
theorem patch_failure_graceful_degradation (req : RenderReq) (orc : Oracles) (dims : ℤ × ℤ)
    (hshow : req.showPatchImage = true) :
    renderScene req orc none =
      (renderScene req orc (some dims)).filter (fun o => !isPatchOp o)
    ∧ (∀ o ∈ renderScene req orc none, isPatchOp o = false)
    ∧ customTextY req.height req.patchPositionY req.showPatchImage =
        logoYOf req.height req.patchPositionY + 380 := by
  refine ⟨?_, ?_, ?_⟩
  · unfold renderScene
    rw [patchOps_of_load_failure]
    simp only [List.filter_append]
    rw [filter_nonpatch_eq_self (backgroundOps_nonpatch req orc),
      filter_nonpatch_eq_self (themeEffectOps_nonpatch req.selectedTheme req.backgroundThemes),
      patchOps_some_filter,
      filter_nonpatch_eq_self (customTextOps_nonpatch req),
      filter_nonpatch_eq_self (dateTimeOps_nonpatch req),
      filter_nonpatch_eq_self (scheduleOps_nonpatch req orc),
      filter_nonpatch_eq_self (footerOps_nonpatch req)]
  · intro o ho
    unfold renderScene at ho
    rw [patchOps_of_load_failure] at ho
    simp only [List.append_assoc, List.append_nil, List.nil_append, List.mem_append] at ho
    rcases ho with h | h | h | h | h | h
    · exact backgroundOps_nonpatch req orc o h
    · exact themeEffectOps_nonpatch req.selectedTheme req.backgroundThemes o h
    · exact customTextOps_nonpatch req o h
    · exact dateTimeOps_nonpatch req o h
    · exact scheduleOps_nonpatch req orc o h
    · exact footerOps_nonpatch req o h
  · simp [customTextY, hshow]

/-- Witness for C5 at a concrete patch-enabled request. -/
theorem patch_failure_graceful_degradation_witness :
    renderScene demoPatchReq demoOracles none =
      (renderScene demoPatchReq demoOracles (some (300, 300))).filter (fun o => !isPatchOp o)
    ∧ (∀ o ∈ renderScene demoPatchReq demoOracles none, isPatchOp o = false)
    ∧ customTextY demoPatchReq.height demoPatchReq.patchPositionY demoPatchReq.showPatchImage =
        logoYOf demoPatchReq.height demoPatchReq.patchPositionY + 380 :=
  patch_failure_graceful_degradation demoPatchReq demoOracles (300, 300) rfl

/-- Helper: a successful throwing map gives a pointwise
correspondence. -/
theorem jsMapThrow_forall₂ {α β : Type} (f : α → Option β) :
    ∀ {l : List α} {l' : List β}, jsMapThrow f l = some l' →
      List.Forall₂ (fun a b => f a = some b) l l' := by
  intro l
  induction l with
  | nil =>
    intro l' h
    simp only [jsMapThrow, Option.some.injEq] at h
    subst h
    exact List.Forall₂.nil
  | cons a rest ih =>
    intro l' h
    unfold jsMapThrow at h
    cases hfa : f a with
    | none =>
      simp only [hfa] at h
      exact Option.noConfusion h
    | some b =>
      cases hrest : jsMapThrow f rest with
      | none =>
        simp only [hfa, hrest] at h
        exact Option.noConfusion h
      | some bs =>
        simp only [hfa, hrest, Option.some.injEq] at h
        subst h
        exact List.Forall₂.cons hfa (ih hrest)

/-- Helper: members of the right list of a correspondence have a related
source on the left. -/
theorem forall₂_mem_right {α β : Type} {R : α → β → Prop} :
    ∀ {l : List α} {l' : List β}, List.Forall₂ R l l' → ∀ b ∈ l', ∃ a ∈ l, R a b := by
  intro l l' h
  induction h with
  | nil =>
    intro b hb
    exact absurd hb (List.not_mem_nil b)
  | @cons a b l₁ l₂ h₁ h₂ ih =>
    intro c hc
    rcases List.mem_cons.mp hc with rfl | hc'
    · exact ⟨a, List.mem_cons_self a l₁, h₁⟩
    · obtain ⟨a', ha', hr⟩ := ih c hc'
      exact ⟨a', List.mem_cons_of_mem a ha', hr⟩

/-- Helper: a pairwise property transports along a successful throwing
map. -/
theorem pairwise_transport {α β : Type} {R : α → α → Prop} {S : β → β → Prop}
    {f : α → Option β}
    (hf : ∀ a b a2 b2, f a = some b → f a2 = some b2 → R a a2 → S b b2) :
    ∀ {l : List α} {l' : List β}, List.Forall₂ (fun a b => f a = some b) l l' →
      l.Pairwise R → l'.Pairwise S := by
  intro l l' hfa
  induction hfa with
  | nil =>
    intro _
    exact List.Pairwise.nil
  | @cons a b l₁ l₂ h₁ h₂ ih =>
    intro hp
    rcases List.pairwise_cons.mp hp with ⟨hhead, htail⟩
    refine List.Pairwise.cons ?_ (ih htail)
    intro b2 hb2
    obtain ⟨a2, ha2, hfa2⟩ := forall₂_mem_right h₂ b2 hb2
    exact hf a b a2 b2 h₁ hfa2 (hhead a2 ha2)

/-- Helper: the record produced from a fixture carries the fixture's
kickoff string in its `date` field. -/
theorem toMatchRec_date {ml : String → String → String} {p : Fixture × String}
    {m : MatchRec} (h : toMatchRec ml p = some m) : m.date = some p.1.starting_at := by
  unfold toMatchRec at h
  cases hfind : p.1.participants.find? (fun q => q.id = 607) with
  | none =>
    simp only [hfind] at h
    exact Option.noConfusion h
  | some tb =>
    simp only [hfind, Option.some.injEq] at h
    subst h
    rfl

/-- C10: whenever the bundled provider `getNext4Matches` returns (does
not throw), it returns at most 4 match records — so the renderer's
six-entry schedule-row capacity `min(length, 6)` never truncates — each
record comes from a fixture of the schedule that passed the
strictly-in-the-future, `state_id === 1` filter, and the records are in
ascending `parseDateSafely` kickoff order, establishing the chronological
invariant the renderer trusts. -/
theorem bundled_provider_contract (sched : List Stage) (np : String → Option ℤ)
    (now : ℤ) (ml : String → String → String) (ms : List MatchRec)
    (hok : getNext4Matches sched np now ml = some ms) :
    ms.length ≤ 4
    ∧ min ms.length 6 = ms.length
    ∧ (∀ m ∈ ms, ∃ p : Fixture × String, p ∈ allFixtures sched
        ∧ isUpcoming np now p.1 = true ∧ toMatchRec ml p = some m)
    ∧ List.Pairwise (fun a b : MatchRec =>
        sortKeyD now (a.date.getD "") ≤ sortKeyD now (b.date.getD "")) ms := by
  simp only [getNext4Matches] at hok
  have hfa := jsMapThrow_forall₂ _ hok
  have hlen : ms.length ≤ 4 := by
    have he := hfa.length_eq
    rw [← he, List.length_take]
    exact min_le_left 4 _
  refine ⟨hlen, min_eq_left (le_trans hlen (by norm_num)), ?_, ?_⟩
  · intro m hm
    obtain ⟨p, hp, hfp⟩ := forall₂_mem_right hfa m hm
    have hp' : p ∈ ((allFixtures sched).filter
        (fun p => isUpcoming np now p.1)).insertionSort (fixtureLE now) :=
      List.mem_of_mem_take hp
    have hp'' : p ∈ (allFixtures sched).filter (fun p => isUpcoming np now p.1) :=
      (List.perm_insertionSort (fixtureLE now) _).mem_iff.mp hp'
    rw [List.mem_filter] at hp''
    exact ⟨p, hp''.1, hp''.2, hfp⟩
  · have hsorted : (((allFixtures sched).filter
        (fun p => isUpcoming np now p.1)).insertionSort (fixtureLE now)).Pairwise
          (fixtureLE now) :=
      List.sorted_insertionSort (fixtureLE now) _
    have htake := hsorted.sublist (List.take_sublist 4 _)
    refine pairwise_transport ?_ hfa htake
    intro a b a2 b2 h1 h2 hr
    rw [toMatchRec_date h1, toMatchRec_date h2]
    simpa only [Option.getD_some] using hr

/-- Witness for C10 on a concrete one-fixture schedule. -/
theorem bundled_provider_contract_witness :
    demoMatches.length ≤ 4
    ∧ min demoMatches.length 6 = demoMatches.length
    ∧ (∀ m ∈ demoMatches, ∃ p : Fixture × String, p ∈ allFixtures demoSchedule
        ∧ isUpcoming (fun _ => some 1) 0 p.1 = true
        ∧ toMatchRec (fun _ _ => "") p = some m)
    ∧ List.Pairwise (fun a b : MatchRec =>
        sortKeyD 0 (a.date.getD "") ≤ sortKeyD 0 (b.date.getD "")) demoMatches :=
  bundled_provider_contract demoSchedule (fun _ => some 1) 0 (fun _ _ => "")
    demoMatches (by rfl)
